import Mathlib

/-!
Verification development for the video-generation script
(src/videos/child-imagination.py).

The script is a straight-line program with one loop:

  1. submit a generation request (client.models.generate_videos),
     obtaining an operation snapshot;
  2. while the snapshot is not done: print a waiting message,
     sleep 10 seconds, and re-query the service for a fresh snapshot
     (client.operations.get);
  3. read the first generated video of the completed response,
     download it, save it to "style_example.mp4", and print a final
     message.

We embed the script as a fuel-indexed interpreter over an abstract
service.  The service decides the result of each remote call (submit,
the k-th poll, download, save); each call may either return a value or
raise an error, which the script never catches.  The interpreter emits
a trace of observable events (prints, sleeps, service calls) so that
the spec's trace-level properties can be stated directly.
-/

/-- Snapshot of the remote operation as seen by the script: the done
flag, and the generated-video list of its response (the artifacts are
identified by opaque numeric references). -/
structure OperationSnapshot where
  done : Bool
  generated_videos : List Nat
  deriving DecidableEq

/-- Model identifier passed to generate_videos in the source. -/
def MODEL_ID : String := "veo-3.0-generate-preview"

/-- Prompt string passed to generate_videos in the source. -/
def PROMPT : String :=
  "A whimsical stop-motion animation of a tiny robot tending to a garden of glowing mushrooms on a miniature planet."

/-- Fixed output filename used by the save call in the source. -/
def OUTPUT_FILENAME : String := "style_example.mp4"

/-- Message printed on every loop iteration. -/
def WAITING_MSG : String := "Waiting for video generation to complete..."

/-- Message printed after the save call. -/
def SAVED_MSG : String := "Generated video saved to style_example.mp4"

/-- Observable events of a run of the script. -/
inductive Event where
  | submitCall (model prompt : String)
  | printMsg (msg : String)
  | sleepCall (seconds : Nat)
  | pollCall
  | downloadCall (artifact : Nat)
  | saveCall (artifact : Nat) (filename : String)
  deriving DecidableEq

/-- Result of one remote call: a value, or a raised error. -/
inductive SvcResult (α : Type) where
  | ok (val : α)
  | err (msg : String)
  deriving DecidableEq

/-- Abstract remote service: the environment of the script.  `poll k`
is the result of the k-th operations.get call. -/
structure Service where
  submit : SvcResult OperationSnapshot
  poll : Nat → SvcResult OperationSnapshot
  download : Nat → SvcResult Unit
  save : Nat → String → SvcResult Unit

/-- Result of running the polling loop with a given amount of fuel:
the loop exited with a final snapshot, a poll call raised, or the fuel
ran out with the loop still going.  The trace lists the events the
loop emitted. -/
inductive LoopResult where
  | finished (final : OperationSnapshot) (trace : List Event)
  | fault (msg : String) (trace : List Event)
  | running (trace : List Event)
  deriving DecidableEq

/-- Events emitted by a loop result. -/
def LoopResult.trace : LoopResult → List Event
  | .finished _ tr => tr
  | .fault _ tr => tr
  | .running tr => tr

/-- Prepend events to the trace of a loop result. -/
def LoopResult.withPre (pre : List Event) : LoopResult → LoopResult
  | .finished f tr => .finished f (pre ++ tr)
  | .fault m tr => .fault m (pre ++ tr)
  | .running tr => .running (pre ++ tr)

/-- Events of one loop iteration, in source order: the waiting print,
time.sleep(10), and the operations.get call. -/
def iterEvents : List Event :=
  [Event.printMsg WAITING_MSG, Event.sleepCall 10, Event.pollCall]

/-- Trace of n consecutive loop iterations. -/
def iterTrace : Nat → List Event
  | 0 => []
  | n + 1 => iterEvents ++ iterTrace n

/-- The polling loop of the script: while the snapshot is not done,
print, sleep, and poll for a fresh snapshot.  `k` counts the poll
calls issued so far; `fuel` bounds how many iterations we unfold. -/
def pollLoop (svc : Service) : Nat → OperationSnapshot → Nat → LoopResult
  | fuel, op, k =>
    if op.done then LoopResult.finished op []
    else
      match fuel with
      | 0 => LoopResult.running []
      | fuel' + 1 =>
        match svc.poll k with
        | SvcResult.err m => LoopResult.fault m iterEvents
        | SvcResult.ok op' => (pollLoop svc fuel' op' (k + 1)).withPre iterEvents

/-- Outcome of a full run of the script: normal completion, an
unhandled error from some remote call, the IndexError raised by
generated_videos[0] on an empty list, or the loop still running when
the fuel ran out. -/
inductive Outcome where
  | ok (trace : List Event)
  | fault (msg : String) (trace : List Event)
  | indexError (trace : List Event)
  | running (trace : List Event)
  deriving DecidableEq

/-- Events of an outcome. -/
def Outcome.trace : Outcome → List Event
  | .ok tr => tr
  | .fault _ tr => tr
  | .indexError tr => tr
  | .running tr => tr

/-- The whole script: submit, poll until done, read the first
generated video, download it, save it, print the final message.
Any error from a remote call propagates immediately as a fault, with
no further events. -/
def runProgram (svc : Service) (fuel : Nat) : Outcome :=
  match svc.submit with
  | SvcResult.err m => Outcome.fault m [Event.submitCall MODEL_ID PROMPT]
  | SvcResult.ok op0 =>
    match pollLoop svc fuel op0 0 with
    | LoopResult.running tr => Outcome.running (Event.submitCall MODEL_ID PROMPT :: tr)
    | LoopResult.fault m tr => Outcome.fault m (Event.submitCall MODEL_ID PROMPT :: tr)
    | LoopResult.finished final tr =>
      match final.generated_videos with
      | [] => Outcome.indexError (Event.submitCall MODEL_ID PROMPT :: tr)
      | v :: _ =>
        match svc.download v with
        | SvcResult.err m =>
          Outcome.fault m (Event.submitCall MODEL_ID PROMPT :: tr ++ [Event.downloadCall v])
        | SvcResult.ok _ =>
          match svc.save v OUTPUT_FILENAME with
          | SvcResult.err m =>
            Outcome.fault m (Event.submitCall MODEL_ID PROMPT :: tr ++
              [Event.downloadCall v, Event.saveCall v OUTPUT_FILENAME])
          | SvcResult.ok _ =>
            Outcome.ok (Event.submitCall MODEL_ID PROMPT :: tr ++
              [Event.downloadCall v, Event.saveCall v OUTPUT_FILENAME, Event.printMsg SAVED_MSG])

/-- A service on which every call succeeds: submit returns `op0`, the
k-th poll returns `polls k`, download and save always succeed. -/
def pureService (op0 : OperationSnapshot) (polls : Nat → OperationSnapshot) : Service where
  submit := SvcResult.ok op0
  poll := fun k => SvcResult.ok (polls k)
  download := fun _ => SvcResult.ok ()
  save := fun _ _ => SvcResult.ok ()

/-- The sequence of snapshots the script observes on a pure service:
the submit result first, then the successive poll results. -/
def snapAt (op0 : OperationSnapshot) (polls : Nat → OperationSnapshot) : Nat → OperationSnapshot
  | 0 => op0
  | n + 1 => polls n

theorem LoopResult.withPre_trace (pre : List Event) (r : LoopResult) :
    (r.withPre pre).trace = pre ++ r.trace := by
  cases r <;> rfl

/-- A done snapshot exits the loop at once, whatever the fuel. -/
theorem pollLoop_of_done (svc : Service) (op : OperationSnapshot) (h : op.done = true)
    (fuel k : Nat) : pollLoop svc fuel op k = LoopResult.finished op [] := by
  cases fuel <;> simp [pollLoop, h]

/-- With no fuel left, a not-done snapshot leaves the loop running. -/
theorem pollLoop_zero_of_not_done (svc : Service) (op : OperationSnapshot)
    (h : op.done = false) (k : Nat) : pollLoop svc 0 op k = LoopResult.running [] := by
  simp [pollLoop, h]

/-- One iteration on a not-done snapshot: print, sleep, poll, then
continue from the fresh snapshot (or fault if the poll raised). -/
theorem pollLoop_succ_of_not_done (svc : Service) (op : OperationSnapshot)
    (h : op.done = false) (fuel k : Nat) :
    pollLoop svc (fuel + 1) op k =
      match svc.poll k with
      | SvcResult.err m => LoopResult.fault m iterEvents
      | SvcResult.ok op' => (pollLoop svc fuel op' (k + 1)).withPre iterEvents := by
  simp [pollLoop, h]

/-- The loop only finishes on a snapshot whose done flag is true. -/
theorem pollLoop_finished_done (svc : Service) :
    ∀ fuel op k final tr,
      pollLoop svc fuel op k = LoopResult.finished final tr → final.done = true := by
  intro fuel
  induction fuel with
  | zero =>
    intro op k final tr h
    by_cases hd : op.done
    · rw [pollLoop_of_done svc op hd] at h
      cases h
      exact hd
    · rw [pollLoop_zero_of_not_done svc op (by simpa using hd)] at h
      cases h
  | succ n ih =>
    intro op k final tr h
    by_cases hd : op.done
    · rw [pollLoop_of_done svc op hd] at h
      cases h
      exact hd
    · rw [pollLoop_succ_of_not_done svc op (by simpa using hd)] at h
      cases hp : svc.poll k with
      | err m => rw [hp] at h; cases h
      | ok op' =>
        simp only [hp] at h
        cases hr : pollLoop svc n op' (k + 1) with
        | finished f tr' =>
          simp only [hr, LoopResult.withPre] at h
          cases h
          exact ih op' (k + 1) _ _ hr
        | fault m tr' => simp only [hr, LoopResult.withPre] at h; cases h
        | running tr' => simp only [hr, LoopResult.withPre] at h; cases h

/-- Every event the loop emits is a waiting print, a 10-second sleep,
or a poll call. -/
theorem pollLoop_trace_events (svc : Service) :
    ∀ fuel op k, ∀ e ∈ (pollLoop svc fuel op k).trace, e ∈ iterEvents := by
  intro fuel
  induction fuel with
  | zero =>
    intro op k e he
    by_cases hd : op.done
    · rw [pollLoop_of_done svc op hd] at he
      cases he
    · rw [pollLoop_zero_of_not_done svc op (by simpa using hd)] at he
      cases he
  | succ n ih =>
    intro op k e he
    by_cases hd : op.done
    · rw [pollLoop_of_done svc op hd] at he
      cases he
    · rw [pollLoop_succ_of_not_done svc op (by simpa using hd)] at he
      cases hp : svc.poll k with
      | err m =>
        rw [hp] at he
        exact he
      | ok op' =>
        simp only [hp] at he
        rw [LoopResult.withPre_trace] at he
        rcases List.mem_append.1 he with h1 | h2
        · exact h1
        · exact ih op' (k + 1) e h2

/-- If the loop finished on a pure service, some observed snapshot
had its done flag set. -/
theorem pollLoop_pure_finished (op0 : OperationSnapshot) (polls : Nat → OperationSnapshot) :
    ∀ fuel k final tr,
      pollLoop (pureService op0 polls) fuel (snapAt op0 polls k) k =
        LoopResult.finished final tr →
      ∃ n, k ≤ n ∧ (snapAt op0 polls n).done = true := by
  intro fuel
  induction fuel with
  | zero =>
    intro k final tr h
    by_cases hd : (snapAt op0 polls k).done
    · exact ⟨k, le_refl k, hd⟩
    · rw [pollLoop_zero_of_not_done _ _ (by simpa using hd)] at h
      cases h
  | succ n ih =>
    intro k final tr h
    by_cases hd : (snapAt op0 polls k).done
    · exact ⟨k, le_refl k, hd⟩
    · rw [pollLoop_succ_of_not_done _ _ (by simpa using hd)] at h
      have hp : (pureService op0 polls).poll k = SvcResult.ok (snapAt op0 polls (k + 1)) := rfl
      simp only [hp] at h
      cases hr : pollLoop (pureService op0 polls) n (snapAt op0 polls (k + 1)) (k + 1) with
      | finished f tr' =>
        obtain ⟨m, hm, hdm⟩ := ih (k + 1) f tr' hr
        exact ⟨m, le_trans (Nat.le_succ k) hm, hdm⟩
      | fault m tr' => rw [hr] at h; cases h
      | running tr' => rw [hr] at h; cases h

/-- If the snapshot d polls ahead is done, d units of fuel suffice for
the loop to finish. -/
theorem pollLoop_pure_reaches (op0 : OperationSnapshot) (polls : Nat → OperationSnapshot) :
    ∀ d k, (snapAt op0 polls (k + d)).done = true →
      ∃ final tr, pollLoop (pureService op0 polls) d (snapAt op0 polls k) k =
        LoopResult.finished final tr := by
  intro d
  induction d with
  | zero =>
    intro k h
    exact ⟨snapAt op0 polls k, [],
      pollLoop_of_done (pureService op0 polls) (snapAt op0 polls k) (by simpa using h) 0 k⟩
  | succ n ih =>
    intro k h
    by_cases hd : (snapAt op0 polls k).done
    · exact ⟨snapAt op0 polls k, [],
        pollLoop_of_done (pureService op0 polls) (snapAt op0 polls k) hd (n + 1) k⟩
    · obtain ⟨f, tr, hr⟩ := ih (k + 1) (by
        have hkn : k + 1 + n = k + (n + 1) := by omega
        rw [hkn]
        exact h)
      refine ⟨f, iterEvents ++ tr, ?_⟩
      rw [pollLoop_succ_of_not_done _ _ (by simpa using hd)]
      have hr' : pollLoop (pureService op0 polls) n (polls k) (k + 1) =
          LoopResult.finished f tr := hr
      show (pollLoop (pureService op0 polls) n (polls k) (k + 1)).withPre iterEvents =
        LoopResult.finished f (iterEvents ++ tr)
      rw [hr']
      rfl

/-- If the first fuel+1 observed snapshots are all not done, the loop
is still running after fuel full iterations, each one a waiting print,
a 10-second sleep, and a poll call. -/
theorem pollLoop_pure_running (op0 : OperationSnapshot) (polls : Nat → OperationSnapshot) :
    ∀ fuel k, (∀ i, i ≤ fuel → (snapAt op0 polls (k + i)).done = false) →
      pollLoop (pureService op0 polls) fuel (snapAt op0 polls k) k =
        LoopResult.running (iterTrace fuel) := by
  intro fuel
  induction fuel with
  | zero =>
    intro k h
    have h0 : (snapAt op0 polls k).done = false := by simpa using h 0 (le_refl 0)
    rw [pollLoop_zero_of_not_done _ _ h0]
    rfl
  | succ n ih =>
    intro k h
    have h0 : (snapAt op0 polls k).done = false := by simpa using h 0 (Nat.zero_le _)
    rw [pollLoop_succ_of_not_done _ _ h0]
    have hr : pollLoop (pureService op0 polls) n (polls k) (k + 1) =
        LoopResult.running (iterTrace n) := by
      have := ih (k + 1) (fun i hi => by
        have hki : k + 1 + i = k + (i + 1) := by omega
        rw [hki]
        exact h (i + 1) (Nat.succ_le_succ hi))
      exact this
    show (pollLoop (pureService op0 polls) n (polls k) (k + 1)).withPre iterEvents =
      LoopResult.running (iterTrace (n + 1))
    rw [hr]
    rfl

theorem pureService_submit (op0 : OperationSnapshot) (polls : Nat → OperationSnapshot) :
    (pureService op0 polls).submit = SvcResult.ok op0 := rfl

theorem pureService_poll (op0 : OperationSnapshot) (polls : Nat → OperationSnapshot) (k : Nat) :
    (pureService op0 polls).poll k = SvcResult.ok (polls k) := rfl

theorem pureService_download (op0 : OperationSnapshot) (polls : Nat → OperationSnapshot) (v : Nat) :
    (pureService op0 polls).download v = SvcResult.ok () := rfl

theorem pureService_save (op0 : OperationSnapshot) (polls : Nat → OperationSnapshot)
    (v : Nat) (f : String) : (pureService op0 polls).save v f = SvcResult.ok () := rfl

/-- On a pure service, once the loop finished on a snapshot whose
video list starts with v, the run completes normally: the trace is the
submit call, the loop trace, then download, save and the final print,
all on the first video v. -/
theorem runProgram_pure_of_finished (op0 : OperationSnapshot) (polls : Nat → OperationSnapshot)
    (fuel : Nat) (final : OperationSnapshot) (tr : List Event) (v : Nat) (vs : List Nat)
    (hfin : pollLoop (pureService op0 polls) fuel op0 0 = LoopResult.finished final tr)
    (hv : final.generated_videos = v :: vs) :
    runProgram (pureService op0 polls) fuel =
      Outcome.ok (Event.submitCall MODEL_ID PROMPT :: tr ++
        [Event.downloadCall v, Event.saveCall v OUTPUT_FILENAME, Event.printMsg SAVED_MSG]) := by
  simp only [runProgram, pureService_submit, pureService_download, pureService_save, hfin, hv]

/-- Per-event sanity predicate: sleeps last exactly 10 seconds and
saves target the fixed output filename. -/
def eventWellFormed : Event → Bool
  | Event.sleepCall s => s == 10
  | Event.saveCall _ f => f == OUTPUT_FILENAME
  | _ => true

theorem mem_iterEvents_wellFormed (e : Event) (he : e ∈ iterEvents) :
    eventWellFormed e = true := by
  simp only [iterEvents, List.mem_cons, List.not_mem_nil, or_false] at he
  rcases he with rfl | rfl | rfl <;> rfl

/-- Every event in any run trace is well formed: in particular every
sleep is 10 seconds and every save uses the fixed filename. -/
theorem runProgram_trace_wellFormed (svc : Service) (fuel : Nat) :
    ∀ e ∈ (runProgram svc fuel).trace, eventWellFormed e = true := by
  intro e he
  have hloop : ∀ x ∈ (pollLoop svc fuel
      (match svc.submit with | SvcResult.ok o => o | SvcResult.err _ => ⟨true, []⟩) 0).trace,
      eventWellFormed x = true := fun x hx =>
    mem_iterEvents_wellFormed x (pollLoop_trace_events svc fuel _ 0 x hx)
  cases hs : svc.submit with
  | err m =>
    simp only [runProgram, hs, Outcome.trace, List.mem_singleton] at he
    subst he
    rfl
  | ok op0 =>
    have hloop' : ∀ x ∈ (pollLoop svc fuel op0 0).trace, eventWellFormed x = true :=
      fun x hx => mem_iterEvents_wellFormed x (pollLoop_trace_events svc fuel op0 0 x hx)
    cases hr : pollLoop svc fuel op0 0 with
    | running tr =>
      rw [hr] at hloop'
      simp only [runProgram, hs, hr, Outcome.trace, List.mem_cons] at he
      rcases he with rfl | h2
      · rfl
      · exact hloop' e h2
    | fault m tr =>
      rw [hr] at hloop'
      simp only [runProgram, hs, hr, Outcome.trace, List.mem_cons] at he
      rcases he with rfl | h2
      · rfl
      · exact hloop' e h2
    | finished final tr =>
      rw [hr] at hloop'
      cases hv : final.generated_videos with
      | nil =>
        simp only [runProgram, hs, hr, hv, Outcome.trace, List.mem_cons] at he
        rcases he with rfl | h2
        · rfl
        · exact hloop' e h2
      | cons v vs =>
        cases hdl : svc.download v with
        | err m =>
          simp only [runProgram, hs, hr, hv, hdl, Outcome.trace, List.mem_cons,
            List.mem_append, List.not_mem_nil, or_false] at he
          rcases he with (rfl | h2) | rfl
          · rfl
          · exact hloop' e h2
          · rfl
        | ok u =>
          cases hsv : svc.save v OUTPUT_FILENAME with
          | err m =>
            simp only [runProgram, hs, hr, hv, hdl, hsv, Outcome.trace, List.mem_cons,
              List.mem_append, List.not_mem_nil, or_false] at he
            rcases he with (rfl | h2) | rfl | rfl
            · rfl
            · exact hloop' e h2
            · rfl
            · simp [eventWellFormed]
          | ok u' =>
            simp only [runProgram, hs, hr, hv, hdl, hsv, Outcome.trace, List.mem_cons,
              List.mem_append, List.not_mem_nil, or_false] at he
            rcases he with (rfl | h2) | rfl | rfl | rfl
            · rfl
            · exact hloop' e h2
            · rfl
            · simp [eventWellFormed]
            · rfl

/-- Relation between two loop results: same shape, same trace, and in
the finished case equal video lists of the final snapshots. -/
def LoopRel : LoopResult → LoopResult → Prop
  | LoopResult.finished f tr, LoopResult.finished f' tr' =>
      f.generated_videos = f'.generated_videos ∧ tr = tr'
  | LoopResult.fault m tr, LoopResult.fault m' tr' => m = m' ∧ tr = tr'
  | LoopResult.running tr, LoopResult.running tr' => tr = tr'
  | _, _ => False

theorem LoopRel_withPre (p : List Event) (a b : LoopResult) (h : LoopRel a b) :
    LoopRel (a.withPre p) (b.withPre p) := by
  cases a <;> cases b <;> simp_all [LoopRel, LoopResult.withPre]

/-- The loop result depends on the observed snapshots only through
their done flags and through the video lists of done snapshots: the
response of a not-done snapshot is never read. -/
theorem pollLoop_pure_rel (op0 op0' : OperationSnapshot) (polls polls' : Nat → OperationSnapshot)
    (hdone : ∀ n, (snapAt op0 polls n).done = (snapAt op0' polls' n).done)
    (hvids : ∀ n, (snapAt op0 polls n).done = true →
      (snapAt op0 polls n).generated_videos = (snapAt op0' polls' n).generated_videos) :
    ∀ fuel k, LoopRel (pollLoop (pureService op0 polls) fuel (snapAt op0 polls k) k)
      (pollLoop (pureService op0' polls') fuel (snapAt op0' polls' k) k) := by
  intro fuel
  induction fuel with
  | zero =>
    intro k
    by_cases hd : (snapAt op0 polls k).done
    · rw [pollLoop_of_done _ _ hd, pollLoop_of_done _ _ (by rw [← hdone k]; exact hd)]
      exact ⟨hvids k hd, rfl⟩
    · have hd1 : (snapAt op0 polls k).done = false := by simpa using hd
      rw [pollLoop_zero_of_not_done _ _ hd1,
        pollLoop_zero_of_not_done _ _ (by rw [← hdone k]; exact hd1)]
      exact rfl
  | succ n ih =>
    intro k
    by_cases hd : (snapAt op0 polls k).done
    · rw [pollLoop_of_done _ _ hd, pollLoop_of_done _ _ (by rw [← hdone k]; exact hd)]
      exact ⟨hvids k hd, rfl⟩
    · have hd1 : (snapAt op0 polls k).done = false := by simpa using hd
      have hd2 : (snapAt op0' polls' k).done = false := by rw [← hdone k]; exact hd1
      rw [pollLoop_succ_of_not_done _ _ hd1, pollLoop_succ_of_not_done _ _ hd2]
      have h1 : (pureService op0 polls).poll k = SvcResult.ok (snapAt op0 polls (k + 1)) := rfl
      have h2 : (pureService op0' polls').poll k = SvcResult.ok (snapAt op0' polls' (k + 1)) := rfl
      simp only [h1, h2]
      exact LoopRel_withPre iterEvents _ _ (ih (k + 1))

/-- Whole-run congruence: two pure services whose snapshot sequences
agree on all done flags, and on the video lists of done snapshots,
give identical runs.  In particular the run never depends on the
response of a snapshot whose done flag is false. -/
theorem runProgram_pure_congr (op0 op0' : OperationSnapshot)
    (polls polls' : Nat → OperationSnapshot)
    (hdone : ∀ n, (snapAt op0 polls n).done = (snapAt op0' polls' n).done)
    (hvids : ∀ n, (snapAt op0 polls n).done = true →
      (snapAt op0 polls n).generated_videos = (snapAt op0' polls' n).generated_videos)
    (fuel : Nat) :
    runProgram (pureService op0 polls) fuel = runProgram (pureService op0' polls') fuel := by
  have hrel : LoopRel (pollLoop (pureService op0 polls) fuel op0 0)
      (pollLoop (pureService op0' polls') fuel op0' 0) :=
    pollLoop_pure_rel op0 op0' polls polls' hdone hvids fuel 0
  simp only [runProgram, pureService_submit]
  cases hA : pollLoop (pureService op0 polls) fuel op0 0 with
  | finished f tr =>
    cases hB : pollLoop (pureService op0' polls') fuel op0' 0 with
    | finished f' tr' =>
      rw [hA, hB] at hrel
      obtain ⟨hvv, htt⟩ := hrel
      subst htt
      obtain ⟨d1, gv1⟩ := f
      obtain ⟨d2, gv2⟩ := f'
      have hgv : gv1 = gv2 := hvv
      subst hgv
      cases gv1 with
      | nil => rfl
      | cons v vs => rfl
    | fault m tr' => rw [hA, hB] at hrel; exact hrel.elim
    | running tr' => rw [hA, hB] at hrel; exact hrel.elim
  | fault m tr =>
    cases hB : pollLoop (pureService op0' polls') fuel op0' 0 with
    | finished f' tr' => rw [hA, hB] at hrel; exact hrel.elim
    | fault m' tr' =>
      rw [hA, hB] at hrel
      obtain ⟨hmm, htt⟩ := hrel
      subst hmm
      subst htt
      rfl
    | running tr' => rw [hA, hB] at hrel; exact hrel.elim
  | running tr =>
    cases hB : pollLoop (pureService op0' polls') fuel op0' 0 with
    | finished f' tr' => rw [hA, hB] at hrel; exact hrel.elim
    | fault m' tr' => rw [hA, hB] at hrel; exact hrel.elim
    | running tr' =>
      rw [hA, hB] at hrel
      subst hrel
      rfl

/-- Discriminator for the waiting print. -/
def Event.isWaitingPrint : Event → Bool
  | Event.printMsg m => m == WAITING_MSG
  | _ => false

/-- Discriminator for sleep events. -/
def Event.isSleep : Event → Bool
  | Event.sleepCall _ => true
  | _ => false

/-- Discriminator for poll calls. -/
def Event.isPoll : Event → Bool
  | Event.pollCall => true
  | _ => false

/-- Discriminator for save calls. -/
def Event.isSave : Event → Bool
  | Event.saveCall _ _ => true
  | _ => false

/-- The poll results of the test scenario of the spec: done=false on
the first poll, then done=true with a single artifact a. -/
def scenarioPolls (a : Nat) : Nat → OperationSnapshot :=
  fun k => if k = 0 then ⟨false, []⟩ else ⟨true, [a]⟩

/-- The test scenario of the spec: submit returns done=false, the
service then reports done=false once more, then done=true with one
artifact. -/
def scenarioService (a : Nat) : Service :=
  pureService ⟨false, []⟩ (scenarioPolls a)

/-- Service whose submit call raises. -/
def submitFailSvc : Service where
  submit := SvcResult.err "network error: submit failed"
  poll := fun _ => SvcResult.ok ⟨true, [1]⟩
  download := fun _ => SvcResult.ok ()
  save := fun _ _ => SvcResult.ok ()

/-- Service whose first poll is not done and whose second poll
raises: the failure happens after one full loop iteration. -/
def latePollFailSvc : Service where
  submit := SvcResult.ok ⟨false, []⟩
  poll := fun k => if k = 0 then SvcResult.ok ⟨false, []⟩
    else SvcResult.err "server error at poll 1"
  download := fun _ => SvcResult.ok ()
  save := fun _ _ => SvcResult.ok ()

/-- Service that completes after one not-done iteration and whose
download raises. -/
def lateDownloadFailSvc : Service where
  submit := SvcResult.ok ⟨false, []⟩
  poll := fun _ => SvcResult.ok ⟨true, [6]⟩
  download := fun _ => SvcResult.err "download interrupted"
  save := fun _ _ => SvcResult.ok ()

/-- Service that completes after one not-done iteration and whose
save raises. -/
def lateSaveFailSvc : Service where
  submit := SvcResult.ok ⟨false, []⟩
  poll := fun _ => SvcResult.ok ⟨true, [6]⟩
  download := fun _ => SvcResult.ok ()
  save := fun _ _ => SvcResult.err "disk write failure"

/-- C1: the polling loop terminates iff some observed snapshot has
done = true; as long as every observed snapshot is not done, the loop
keeps performing full print-sleep-poll iterations and never exits. -/
theorem C1_polling_loop_terminates_iff_done (op0 : OperationSnapshot)
    (polls : Nat → OperationSnapshot) :
    ((∃ fuel final tr, pollLoop (pureService op0 polls) fuel op0 0 =
        LoopResult.finished final tr) ↔
      (∃ n, (snapAt op0 polls n).done = true))
    ∧ (∀ fuel, (∀ i, i ≤ fuel → (snapAt op0 polls i).done = false) →
        pollLoop (pureService op0 polls) fuel op0 0 = LoopResult.running (iterTrace fuel)) := by
  constructor
  · constructor
    · rintro ⟨fuel, final, tr, h⟩
      obtain ⟨n, _, hn⟩ := pollLoop_pure_finished op0 polls fuel 0 final tr h
      exact ⟨n, hn⟩
    · rintro ⟨n, hn⟩
      obtain ⟨f, tr, hr⟩ := pollLoop_pure_reaches op0 polls n 0 (by simpa using hn)
      exact ⟨n, f, tr, hr⟩
  · intro fuel h
    exact pollLoop_pure_running op0 polls fuel 0 (fun i hi => by simpa using h i hi)

/-- Witness for C1: with a never-done service the loop is still
running after two full iterations, and with an immediately-done
service it terminates. -/
theorem C1_polling_loop_terminates_iff_done_witness :
    pollLoop (pureService ⟨false, []⟩ (fun _ => ⟨false, []⟩)) 2 ⟨false, []⟩ 0 =
      LoopResult.running (iterTrace 2)
    ∧ ∃ fuel final tr, pollLoop (pureService ⟨true, [3]⟩ (fun _ => ⟨true, [3]⟩)) fuel
        ⟨true, [3]⟩ 0 = LoopResult.finished final tr :=
  ⟨(C1_polling_loop_terminates_iff_done ⟨false, []⟩ (fun _ => ⟨false, []⟩)).2 2
      (fun i _ => by cases i <;> rfl),
   (C1_polling_loop_terminates_iff_done ⟨true, [3]⟩ (fun _ => ⟨true, [3]⟩)).1.mpr
      ⟨0, rfl⟩⟩

/-- C2: whenever the loop finished on a snapshot whose response holds
the videos v :: vs (that is, N = 1 + length vs ≥ 1 artifacts), the run
downloads and saves exactly the first artifact v, whatever vs is. -/
theorem C2_first_artifact_selected (op0 : OperationSnapshot) (polls : Nat → OperationSnapshot)
    (fuel : Nat) (final : OperationSnapshot) (tr : List Event) (v : Nat) (vs : List Nat)
    (hfin : pollLoop (pureService op0 polls) fuel op0 0 = LoopResult.finished final tr)
    (hv : final.generated_videos = v :: vs) :
    runProgram (pureService op0 polls) fuel =
      Outcome.ok (Event.submitCall MODEL_ID PROMPT :: tr ++
        [Event.downloadCall v, Event.saveCall v OUTPUT_FILENAME, Event.printMsg SAVED_MSG]) :=
  runProgram_pure_of_finished op0 polls fuel final tr v vs hfin hv

/-- Witness for C2: with three artifacts the first one, 3, is the one
downloaded and saved. -/
theorem C2_first_artifact_selected_witness :
    runProgram (pureService ⟨true, [3, 4, 5]⟩ (fun _ => ⟨true, [3, 4, 5]⟩)) 0 =
      Outcome.ok (Event.submitCall MODEL_ID PROMPT :: ([] : List Event) ++
        [Event.downloadCall 3, Event.saveCall 3 OUTPUT_FILENAME, Event.printMsg SAVED_MSG]) :=
  C2_first_artifact_selected ⟨true, [3, 4, 5]⟩ (fun _ => ⟨true, [3, 4, 5]⟩) 0
    ⟨true, [3, 4, 5]⟩ [] 3 [4, 5] (by decide) rfl

/-- C3: a save call appears in a run trace only when the polling loop
has finished, which it only does on a snapshot with done = true; no
save event lies inside the loop portion of the trace. -/
theorem C3_no_save_before_done (svc : Service) (fuel : Nat) (v : Nat) (f : String)
    (hsave : Event.saveCall v f ∈ (runProgram svc fuel).trace) :
    ∃ op0 final ltr, svc.submit = SvcResult.ok op0 ∧
      pollLoop svc fuel op0 0 = LoopResult.finished final ltr ∧
      final.done = true ∧ Event.saveCall v f ∉ ltr := by
  have hnotiter : Event.saveCall v f ∉ iterEvents := by simp [iterEvents]
  cases hs : svc.submit with
  | err m =>
    simp only [runProgram, hs, Outcome.trace, List.mem_singleton] at hsave
    cases hsave
  | ok op0 =>
    have hloop : Event.saveCall v f ∉ (pollLoop svc fuel op0 0).trace := fun hx =>
      hnotiter (pollLoop_trace_events svc fuel op0 0 _ hx)
    cases hr : pollLoop svc fuel op0 0 with
    | running ltr =>
      rw [hr] at hloop
      simp only [runProgram, hs, hr, Outcome.trace, List.mem_cons] at hsave
      rcases hsave with h1 | h2
      · cases h1
      · exact absurd h2 hloop
    | fault m ltr =>
      rw [hr] at hloop
      simp only [runProgram, hs, hr, Outcome.trace, List.mem_cons] at hsave
      rcases hsave with h1 | h2
      · cases h1
      · exact absurd h2 hloop
    | finished final ltr =>
      rw [hr] at hloop
      exact ⟨op0, final, ltr, rfl, hr,
        pollLoop_finished_done svc fuel op0 0 final ltr hr, hloop⟩

/-- Witness for C3 on a run whose trace does contain a save call. -/
theorem C3_no_save_before_done_witness :
    ∃ op0 final ltr,
      (pureService ⟨true, [7]⟩ (fun _ => ⟨true, [7]⟩)).submit = SvcResult.ok op0 ∧
      pollLoop (pureService ⟨true, [7]⟩ (fun _ => ⟨true, [7]⟩)) 0 op0 0 =
        LoopResult.finished final ltr ∧
      final.done = true ∧ Event.saveCall 7 OUTPUT_FILENAME ∉ ltr :=
  C3_no_save_before_done (pureService ⟨true, [7]⟩ (fun _ => ⟨true, [7]⟩)) 0 7
    OUTPUT_FILENAME (by decide)

/-- C4: on the scenario service (done=false twice, then done=true with
one artifact a) the run, for any fuel bound of at least 2, performs
exactly two print-sleep-poll cycles followed by one download, one save
and the final print; the waiting message, the sleep and the poll each
occur exactly twice in the trace and the save exactly once. -/
theorem C4_scenario_two_cycles_one_save (a fuel : Nat) (hfuel : 2 ≤ fuel) :
    runProgram (scenarioService a) fuel =
      Outcome.ok (Event.submitCall MODEL_ID PROMPT :: iterTrace 2 ++
        [Event.downloadCall a, Event.saveCall a OUTPUT_FILENAME, Event.printMsg SAVED_MSG])
    ∧ (Event.submitCall MODEL_ID PROMPT :: iterTrace 2 ++
        [Event.downloadCall a, Event.saveCall a OUTPUT_FILENAME,
          Event.printMsg SAVED_MSG]).countP Event.isWaitingPrint = 2
    ∧ (Event.submitCall MODEL_ID PROMPT :: iterTrace 2 ++
        [Event.downloadCall a, Event.saveCall a OUTPUT_FILENAME,
          Event.printMsg SAVED_MSG]).countP Event.isSleep = 2
    ∧ (Event.submitCall MODEL_ID PROMPT :: iterTrace 2 ++
        [Event.downloadCall a, Event.saveCall a OUTPUT_FILENAME,
          Event.printMsg SAVED_MSG]).countP Event.isPoll = 2
    ∧ (Event.submitCall MODEL_ID PROMPT :: iterTrace 2 ++
        [Event.downloadCall a, Event.saveCall a OUTPUT_FILENAME,
          Event.printMsg SAVED_MSG]).countP Event.isSave = 1 := by
  obtain ⟨d, rfl⟩ : ∃ d, fuel = d + 1 + 1 := ⟨fuel - 2, by omega⟩
  refine ⟨?_, ?_, ?_, ?_, ?_⟩
  · have hfin : pollLoop (scenarioService a) (d + 1 + 1) ⟨false, []⟩ 0 =
        LoopResult.finished ⟨true, [a]⟩ (iterTrace 2) := by
      rw [pollLoop_succ_of_not_done _ _ rfl]
      have hp0 : (scenarioService a).poll 0 =
          SvcResult.ok (⟨false, []⟩ : OperationSnapshot) := rfl
      simp only [hp0]
      rw [pollLoop_succ_of_not_done _ _ rfl]
      have hp1 : (scenarioService a).poll (0 + 1) =
          SvcResult.ok (⟨true, [a]⟩ : OperationSnapshot) := rfl
      simp only [hp1]
      rw [pollLoop_of_done _ _ rfl]
      rfl
    exact runProgram_pure_of_finished ⟨false, []⟩ (scenarioPolls a) (d + 1 + 1)
      ⟨true, [a]⟩ (iterTrace 2) a [] hfin rfl
  · rfl
  · rfl
  · rfl
  · rfl

/-- Witness for C4 at artifact 5 and fuel 2. -/
theorem C4_scenario_two_cycles_one_save_witness :
    runProgram (scenarioService 5) 2 =
      Outcome.ok (Event.submitCall MODEL_ID PROMPT :: iterTrace 2 ++
        [Event.downloadCall 5, Event.saveCall 5 OUTPUT_FILENAME, Event.printMsg SAVED_MSG])
    ∧ (Event.submitCall MODEL_ID PROMPT :: iterTrace 2 ++
        [Event.downloadCall 5, Event.saveCall 5 OUTPUT_FILENAME,
          Event.printMsg SAVED_MSG]).countP Event.isWaitingPrint = 2 :=
  ⟨(C4_scenario_two_cycles_one_save 5 2 (by decide)).1,
   (C4_scenario_two_cycles_one_save 5 2 (by decide)).2.1⟩

/-- C5: no failure is handled on any path: a submit error becomes the
fault outcome at once; any fault of the polling loop (in particular a
poll error at any index j, reached through any chain of not-done
snapshots, which faults the loop after exactly j+1 iterations) becomes
the fault outcome of the run verbatim; and a download or save error
after an arbitrary finished polling phase likewise ends the run with
that fault, the trace stopping at the failing call. -/
theorem C5_any_error_propagates (svc : Service) (fuel : Nat) :
    (∀ m, svc.submit = SvcResult.err m →
      runProgram svc fuel = Outcome.fault m [Event.submitCall MODEL_ID PROMPT])
    ∧ (∀ op0 m tr, svc.submit = SvcResult.ok op0 →
      pollLoop svc fuel op0 0 = LoopResult.fault m tr →
      runProgram svc fuel = Outcome.fault m (Event.submitCall MODEL_ID PROMPT :: tr))
    ∧ (∀ j op k m (obs : Nat → OperationSnapshot), obs 0 = op →
      (∀ i, i ≤ j → (obs i).done = false) →
      (∀ i, i < j → svc.poll (k + i) = SvcResult.ok (obs (i + 1))) →
      svc.poll (k + j) = SvcResult.err m →
      ∀ f, j < f → pollLoop svc f op k = LoopResult.fault m (iterTrace (j + 1)))
    ∧ (∀ m op0 final tr v vs, svc.submit = SvcResult.ok op0 →
      pollLoop svc fuel op0 0 = LoopResult.finished final tr →
      final.generated_videos = v :: vs → svc.download v = SvcResult.err m →
      runProgram svc fuel =
        Outcome.fault m (Event.submitCall MODEL_ID PROMPT :: tr ++ [Event.downloadCall v]))
    ∧ (∀ m op0 final tr v vs, svc.submit = SvcResult.ok op0 →
      pollLoop svc fuel op0 0 = LoopResult.finished final tr →
      final.generated_videos = v :: vs → svc.download v = SvcResult.ok () →
      svc.save v OUTPUT_FILENAME = SvcResult.err m →
      runProgram svc fuel =
        Outcome.fault m (Event.submitCall MODEL_ID PROMPT :: tr ++
          [Event.downloadCall v, Event.saveCall v OUTPUT_FILENAME])) := by
  refine ⟨?_, ?_, ?_, ?_, ?_⟩
  · intro m hs
    simp [runProgram, hs]
  · intro op0 m tr hs hfault
    simp only [runProgram, hs, hfault]
  · intro j
    induction j with
    | zero =>
      intro op k m obs h0 hpath hpoll herr f hf
      obtain ⟨g, rfl⟩ : ∃ g, f = g + 1 := ⟨f - 1, by omega⟩
      have hd : op.done = false := by rw [← h0]; exact hpath 0 (le_refl 0)
      rw [pollLoop_succ_of_not_done _ _ hd]
      have hek : svc.poll k = SvcResult.err m := by
        have hk0 : k + 0 = k := by omega
        rw [← hk0]
        exact herr
      simp only [hek]
      rfl
    | succ n ih =>
      intro op k m obs h0 hpath hpoll herr f hf
      obtain ⟨g, rfl⟩ : ∃ g, f = g + 1 := ⟨f - 1, by omega⟩
      have hd : op.done = false := by rw [← h0]; exact hpath 0 (Nat.zero_le _)
      rw [pollLoop_succ_of_not_done _ _ hd]
      have hp0 : svc.poll k = SvcResult.ok (obs 1) := by
        have hk0 : k + 0 = k := by omega
        rw [← hk0]
        exact hpoll 0 (Nat.succ_pos n)
      simp only [hp0]
      have hrec : pollLoop svc g (obs 1) (k + 1) = LoopResult.fault m (iterTrace (n + 1)) := by
        refine ih (obs 1) (k + 1) m (fun i => obs (i + 1)) rfl
          (fun i hi => hpath (i + 1) (Nat.succ_le_succ hi))
          (fun i hi => ?_) ?_ g (by omega)
        · have hki : k + 1 + i = k + (i + 1) := by omega
          rw [hki]
          exact hpoll (i + 1) (Nat.succ_lt_succ hi)
        · have hkn : k + 1 + n = k + (n + 1) := by omega
          rw [hkn]
          exact herr
      rw [hrec]
      rfl
  · intro m op0 final tr v vs hs hfin hv hdl
    simp only [runProgram, hs, hfin, hv, hdl]
  · intro m op0 final tr v vs hs hfin hv hdl hsv
    simp only [runProgram, hs, hfin, hv, hdl, hsv]

/-- Witness for C5: a submit failure, a poll failure at index 1 after
one full not-done iteration (both as a loop fault and propagated to
the whole run), and download and save failures after a one-iteration
polling phase, each propagate verbatim. -/
theorem C5_any_error_propagates_witness :
    runProgram submitFailSvc 3 =
      Outcome.fault "network error: submit failed" [Event.submitCall MODEL_ID PROMPT]
    ∧ pollLoop latePollFailSvc 3 ⟨false, []⟩ 0 =
      LoopResult.fault "server error at poll 1" (iterTrace 2)
    ∧ runProgram latePollFailSvc 3 =
      Outcome.fault "server error at poll 1"
        (Event.submitCall MODEL_ID PROMPT :: iterTrace 2)
    ∧ runProgram lateDownloadFailSvc 2 =
      Outcome.fault "download interrupted"
        (Event.submitCall MODEL_ID PROMPT :: iterTrace 1 ++ [Event.downloadCall 6])
    ∧ runProgram lateSaveFailSvc 2 =
      Outcome.fault "disk write failure"
        (Event.submitCall MODEL_ID PROMPT :: iterTrace 1 ++
          [Event.downloadCall 6, Event.saveCall 6 OUTPUT_FILENAME]) := by
  refine ⟨?_, ?_, ?_, ?_, ?_⟩
  · exact (C5_any_error_propagates submitFailSvc 3).1 _ rfl
  · exact (C5_any_error_propagates latePollFailSvc 3).2.2.1 1 ⟨false, []⟩ 0 _
      (fun _ => ⟨false, []⟩) rfl (fun i _ => rfl)
      (fun i hi => by
        have hiz : i = 0 := by omega
        subst hiz
        rfl) rfl 3 (by omega)
  · exact (C5_any_error_propagates latePollFailSvc 3).2.1 ⟨false, []⟩ _ (iterTrace 2) rfl
      ((C5_any_error_propagates latePollFailSvc 3).2.2.1 1 ⟨false, []⟩ 0 _
        (fun _ => ⟨false, []⟩) rfl (fun i _ => rfl)
        (fun i hi => by
          have hiz : i = 0 := by omega
          subst hiz
          rfl) rfl 3 (by omega))
  · exact (C5_any_error_propagates lateDownloadFailSvc 2).2.2.2.1 _ ⟨false, []⟩
      ⟨true, [6]⟩ (iterTrace 1) 6 [] rfl (by decide) rfl rfl
  · exact (C5_any_error_propagates lateSaveFailSvc 2).2.2.2.2 _ ⟨false, []⟩
      ⟨true, [6]⟩ (iterTrace 1) 6 [] rfl (by decide) rfl rfl rfl

/-- C6: every sleep in any run lasts exactly 10 seconds, and on a
service that never reports done the loop is, for every fuel bound,
still running after exactly that many uniform iterations: no backoff,
no retry limit, no timeout. -/
theorem C6_fixed_interval_unbounded :
    (∀ svc fuel d, Event.sleepCall d ∈ (runProgram svc fuel).trace → d = 10)
    ∧ (∀ op0 polls fuel, (∀ n, (snapAt op0 polls n).done = false) →
      runProgram (pureService op0 polls) fuel =
        Outcome.running (Event.submitCall MODEL_ID PROMPT :: iterTrace fuel)) := by
  constructor
  · intro svc fuel d hmem
    have := runProgram_trace_wellFormed svc fuel _ hmem
    simpa [eventWellFormed] using this
  · intro op0 polls fuel h
    have hrun : pollLoop (pureService op0 polls) fuel op0 0 =
        LoopResult.running (iterTrace fuel) :=
      pollLoop_pure_running op0 polls fuel 0 (fun i _ => by simpa using h i)
    simp only [runProgram, pureService_submit, hrun]

/-- Witness for C6: a never-done service runs forever, and the sleep
length is 10. -/
theorem C6_fixed_interval_unbounded_witness :
    runProgram (pureService ⟨false, []⟩ (fun _ => ⟨false, []⟩)) 3 =
      Outcome.running (Event.submitCall MODEL_ID PROMPT :: iterTrace 3)
    ∧ (10 : Nat) = 10 :=
  ⟨C6_fixed_interval_unbounded.2 ⟨false, []⟩ (fun _ => ⟨false, []⟩) 3
      (fun n => by cases n <;> rfl),
   C6_fixed_interval_unbounded.1 (pureService ⟨false, []⟩ (fun _ => ⟨false, []⟩)) 3 10
      (by decide)⟩

/-- C7: the run never reads the response of a snapshot whose done
flag is false: two services agreeing on all done flags and on the
responses of done snapshots give identical runs, and the loop only
ever hands a done snapshot to the response-reading step. -/
theorem C7_response_read_only_after_done (op0 op0' : OperationSnapshot)
    (polls polls' : Nat → OperationSnapshot)
    (hdone : ∀ n, (snapAt op0 polls n).done = (snapAt op0' polls' n).done)
    (hvids : ∀ n, (snapAt op0 polls n).done = true →
      (snapAt op0 polls n).generated_videos = (snapAt op0' polls' n).generated_videos)
    (fuel : Nat) :
    runProgram (pureService op0 polls) fuel = runProgram (pureService op0' polls') fuel
    ∧ ∀ final tr, pollLoop (pureService op0 polls) fuel op0 0 =
        LoopResult.finished final tr → final.done = true :=
  ⟨runProgram_pure_congr op0 op0' polls polls' hdone hvids fuel,
   fun final tr h => pollLoop_finished_done _ fuel op0 0 final tr h⟩

/-- Witness for C7: changing the video list of a not-done snapshot
does not change the run. -/
theorem C7_response_read_only_after_done_witness :
    runProgram (pureService ⟨false, [9]⟩ (fun _ => ⟨true, [2]⟩)) 5 =
      runProgram (pureService ⟨false, []⟩ (fun _ => ⟨true, [2]⟩)) 5 :=
  (C7_response_read_only_after_done ⟨false, [9]⟩ ⟨false, []⟩
    (fun _ => ⟨true, [2]⟩) (fun _ => ⟨true, [2]⟩)
    (fun n => by cases n <;> rfl)
    (fun n hn => by cases n <;> simp_all [snapAt])
    5).1

/-- C8: every successful run saves exactly one file, always to the
fixed filename, with the completion print right after the save. -/
theorem C8_one_save_fixed_name (svc : Service) (fuel : Nat) (tr : List Event)
    (h : runProgram svc fuel = Outcome.ok tr) :
    ∃ v pre, tr = pre ++ [Event.downloadCall v, Event.saveCall v OUTPUT_FILENAME,
        Event.printMsg SAVED_MSG]
      ∧ (∀ w f, Event.saveCall w f ∉ pre)
      ∧ tr.countP Event.isSave = 1 := by
  cases hs : svc.submit with
  | err m => simp only [runProgram, hs] at h; cases h
  | ok op0 =>
    cases hr : pollLoop svc fuel op0 0 with
    | running ltr => simp only [runProgram, hs, hr] at h; cases h
    | fault m ltr => simp only [runProgram, hs, hr] at h; cases h
    | finished final ltr =>
      cases hv : final.generated_videos with
      | nil => simp only [runProgram, hs, hr, hv] at h; cases h
      | cons v vs =>
        cases hdl : svc.download v with
        | err m => simp only [runProgram, hs, hr, hv, hdl] at h; cases h
        | ok u =>
          cases hsv : svc.save v OUTPUT_FILENAME with
          | err m => simp only [runProgram, hs, hr, hv, hdl, hsv] at h; cases h
          | ok u' =>
            simp only [runProgram, hs, hr, hv, hdl, hsv] at h
            have htr : tr = (Event.submitCall MODEL_ID PROMPT :: ltr) ++
                [Event.downloadCall v, Event.saveCall v OUTPUT_FILENAME,
                  Event.printMsg SAVED_MSG] := by
              cases h
              rfl
            have hpre : ∀ w f, Event.saveCall w f ∉
                Event.submitCall MODEL_ID PROMPT :: ltr := by
              intro w f hmem
              rcases List.mem_cons.1 hmem with h1 | h2
              · cases h1
              · have := pollLoop_trace_events svc fuel op0 0 _ (by rw [hr]; exact h2)
                simp [iterEvents] at this
            refine ⟨v, Event.submitCall MODEL_ID PROMPT :: ltr, htr, hpre, ?_⟩
            rw [htr, List.countP_append]
            have hz : (Event.submitCall MODEL_ID PROMPT :: ltr).countP Event.isSave = 0 := by
              rw [List.countP_eq_zero]
              intro e hmem
              rcases List.mem_cons.1 hmem with h1 | h2
              · subst h1
                simp [Event.isSave]
              · have := pollLoop_trace_events svc fuel op0 0 _ (by rw [hr]; exact h2)
                simp only [iterEvents, List.mem_cons, List.not_mem_nil, or_false] at this
                rcases this with rfl | rfl | rfl <;> simp [Event.isSave]
            rw [hz]
            rfl

/-- Witness for C8 on a run that completes immediately. -/
theorem C8_one_save_fixed_name_witness :
    ∃ v pre, [Event.submitCall MODEL_ID PROMPT, Event.downloadCall 7,
        Event.saveCall 7 OUTPUT_FILENAME, Event.printMsg SAVED_MSG] =
        pre ++ [Event.downloadCall v, Event.saveCall v OUTPUT_FILENAME,
          Event.printMsg SAVED_MSG]
      ∧ (∀ w f, Event.saveCall w f ∉ pre)
      ∧ List.countP Event.isSave [Event.submitCall MODEL_ID PROMPT, Event.downloadCall 7,
          Event.saveCall 7 OUTPUT_FILENAME, Event.printMsg SAVED_MSG] = 1 :=
  C8_one_save_fixed_name (pureService ⟨true, [7]⟩ (fun _ => ⟨true, [7]⟩)) 0
    [Event.submitCall MODEL_ID PROMPT, Event.downloadCall 7,
      Event.saveCall 7 OUTPUT_FILENAME, Event.printMsg SAVED_MSG] (by decide)

/-- C9: if the loop finished on a snapshot with an empty video list,
the run ends with the IndexError of generated_videos[0], before any
download or save: no download and no save event occurs at all. -/
theorem C9_empty_videos_index_error (svc : Service) (fuel : Nat)
    (op0 final : OperationSnapshot) (tr : List Event)
    (hs : svc.submit = SvcResult.ok op0)
    (hfin : pollLoop svc fuel op0 0 = LoopResult.finished final tr)
    (hv : final.generated_videos = []) :
    runProgram svc fuel = Outcome.indexError (Event.submitCall MODEL_ID PROMPT :: tr)
    ∧ (∀ v, Event.downloadCall v ∉ (runProgram svc fuel).trace)
    ∧ (∀ v f, Event.saveCall v f ∉ (runProgram svc fuel).trace) := by
  have hrun : runProgram svc fuel =
      Outcome.indexError (Event.submitCall MODEL_ID PROMPT :: tr) := by
    simp only [runProgram, hs, hfin, hv]
  refine ⟨hrun, ?_, ?_⟩
  · intro v hmem
    rw [hrun] at hmem
    simp only [Outcome.trace, List.mem_cons] at hmem
    rcases hmem with h1 | h2
    · cases h1
    · have := pollLoop_trace_events svc fuel op0 0 _ (by rw [hfin]; exact h2)
      simp [iterEvents] at this
  · intro v f hmem
    rw [hrun] at hmem
    simp only [Outcome.trace, List.mem_cons] at hmem
    rcases hmem with h1 | h2
    · cases h1
    · have := pollLoop_trace_events svc fuel op0 0 _ (by rw [hfin]; exact h2)
      simp [iterEvents] at this

/-- Witness for C9 on a completed operation with zero artifacts. -/
theorem C9_empty_videos_index_error_witness :
    runProgram (pureService ⟨true, []⟩ (fun _ => ⟨true, []⟩)) 0 =
      Outcome.indexError [Event.submitCall MODEL_ID PROMPT]
    ∧ (∀ v, Event.downloadCall v ∉
        (runProgram (pureService ⟨true, []⟩ (fun _ => ⟨true, []⟩)) 0).trace)
    ∧ (∀ v f, Event.saveCall v f ∉
        (runProgram (pureService ⟨true, []⟩ (fun _ => ⟨true, []⟩)) 0).trace) :=
  C9_empty_videos_index_error (pureService ⟨true, []⟩ (fun _ => ⟨true, []⟩)) 0
    ⟨true, []⟩ ⟨true, []⟩ [] rfl (by decide) rfl

/-- C10: the run is a deterministic function of the service's
responses: two runs observing the same snapshot sequence (hence the
same final artifact list) have identical outcomes, so the same
prints, the same service calls and the same saved filename. -/
theorem C10_deterministic_in_responses (op0 op0' : OperationSnapshot)
    (polls polls' : Nat → OperationSnapshot) (fuel : Nat)
    (h : ∀ n, snapAt op0 polls n = snapAt op0' polls' n) :
    runProgram (pureService op0 polls) fuel = runProgram (pureService op0' polls') fuel := by
  have h0 : op0 = op0' := h 0
  have hp : polls = polls' := funext fun n => h (n + 1)
  rw [h0, hp]

/-- Witness for C10 on two identical snapshot sequences. -/
theorem C10_deterministic_in_responses_witness :
    runProgram (pureService ⟨false, []⟩ (fun _ => ⟨true, [1]⟩)) 4 =
      runProgram (pureService ⟨false, []⟩ (fun _ => ⟨true, [1]⟩)) 4 :=
  C10_deterministic_in_responses ⟨false, []⟩ ⟨false, []⟩
    (fun _ => ⟨true, [1]⟩) (fun _ => ⟨true, [1]⟩) 4 (fun _ => rfl)
